import Mathlib

/-!
Verification of the bookid query classifier and result scorer
(`googlebooks/parser.go`, `googlebooks/client.go`).

Strings are modelled as `List Char`.  The Go regular expressions used by
`ParseQuery` are shallowly embedded as explicit backtracking matchers with
Go's leftmost-first, greedy semantics (RE2 `\b` is the ASCII word boundary).
`float64` arithmetic is modelled with exact rationals.
-/

namespace Bookid

abbrev Str := List Char

/-- ASCII digit test, as in the Go source (`r < '0' || r > '9'`). -/
def isDigitChar (c : Char) : Bool := decide ('0' ≤ c) && decide (c ≤ '9')

/-- Characters matched by Go's regexp class `\s` = `[\t\n\f\r ]`. -/
def isRegexSpace (c : Char) : Bool :=
  decide (c = '\t') || decide (c = '\n') || decide (c = '\x0c') ||
  decide (c = '\r') || decide (c = ' ')

/-- The regexp character class `[-\s]` used between ISBN digit groups. -/
def isSepChar (c : Char) : Bool := decide (c = '-') || isRegexSpace c

/-- RE2 word characters (`\b` is the ASCII word boundary): `[0-9A-Za-z_]`. -/
def isWordChar (c : Char) : Bool :=
  isDigitChar c || (decide ('a' ≤ c) && decide (c ≤ 'z')) ||
  (decide ('A' ≤ c) && decide (c ≤ 'Z')) || decide (c = '_')

/-- ASCII whitespace trimmed by `strings.TrimSpace`. -/
def isTrimSpace (c : Char) : Bool :=
  decide (c = '\t') || decide (c = '\n') || decide (c = '\x0b') ||
  decide (c = '\x0c') || decide (c = '\r') || decide (c = ' ')

/-- `strings.TrimSpace`: drop whitespace from both ends. -/
def trimSpace (l : Str) : Str :=
  ((l.dropWhile isTrimSpace).reverse.dropWhile isTrimSpace).reverse

/-- First `some` produced by `f` along a list (backtracking alternatives). -/
def firstSome (f : α → Option β) : List α → Option β
  | [] => none
  | x :: xs =>
    match f x with
    | some r => some r
    | none => firstSome f xs

/-- Consume exactly `n` digits, returning the rest of the input. -/
def digsTake : Nat → Str → Option Str
  | 0, l => some l
  | _ + 1, [] => none
  | n + 1, c :: t => if isDigitChar c then digsTake n t else none

/-- Optionally consume one `[-\s]` separator (`true` = the branch that
consumes; `[-\s]?` is greedy so the consuming branch is tried first). -/
def sepOpt : Bool → Str → Option Str
  | false, l => some l
  | true, [] => none
  | true, c :: t => if isSepChar c then some t else none

/-- The trailing `\b`: a word boundary after a digit holds at end of
input or before a non-word character. -/
def boundaryOK : Str → Bool
  | [] => true
  | d :: _ => !isWordChar d

/-- The final `\d\b` of both ISBN patterns: one digit, then a word
boundary. -/
def lastCheck : Str → Option Str
  | [] => none
  | c :: t => if isDigitChar c && boundaryOK t then some t else none

/-- Backtracking matcher for `\d{1,5}[-\s]?\d{1,7}[-\s]?\d{1,7}[-\s]?\d\b`
(the body of `isbn10Pattern`), in Go's greedy leftmost-first attempt order.
Returns the input remaining after the match. -/
def attempt10 (l : Str) : Option Str :=
  firstSome (fun a => (digsTake a l).bind fun l1 =>
    firstSome (fun s2 => (sepOpt s2 l1).bind fun l2 =>
      firstSome (fun b => (digsTake b l2).bind fun l3 =>
        firstSome (fun s3 => (sepOpt s3 l3).bind fun l4 =>
          firstSome (fun c => (digsTake c l4).bind fun l5 =>
            firstSome (fun s4 => (sepOpt s4 l5).bind fun l6 =>
              lastCheck l6) [true, false]) [7, 6, 5, 4, 3, 2, 1])
          [true, false]) [7, 6, 5, 4, 3, 2, 1]) [true, false])
    [5, 4, 3, 2, 1]

/-- Matcher for the part of `isbn13Pattern` after the literal `97[89]`:
`[-\s]?\d{1,5}[-\s]?\d{1,7}[-\s]?\d{1,7}[-\s]?\d\b`. -/
def attemptTail (l : Str) : Option Str :=
  firstSome (fun s1 => (sepOpt s1 l).bind attempt10) [true, false]

/-- Try `isbn13Pattern`'s body at the current position: the literal
`97[89]` followed by the separated digit groups.  Returns the matched
span (the capture group). -/
def tryAt13 (l : Str) : Option Str :=
  match l with
  | c1 :: c2 :: c3 :: r =>
    if c1 = '9' ∧ c2 = '7' ∧ (c3 = '8' ∨ c3 = '9') then
      (attemptTail r).map (fun rest => l.take (l.length - rest.length))
    else none
  | _ => none

/-- Try `isbn10Pattern`'s body at the current position. -/
def tryAt10 (l : Str) : Option Str :=
  (attempt10 l).map (fun rest => l.take (l.length - rest.length))

/-- `isbn13Pattern.FindStringSubmatch`: scan left to right, checking the
leading `\b` against the previous character's word-ness, and return the
first (leftmost) match. -/
def scan13 (prevW : Bool) : Str → Option Str
  | [] => none
  | c :: t =>
    match (if prevW != isWordChar c then tryAt13 (c :: t) else none) with
    | some r => some r
    | none => scan13 (isWordChar c) t

/-- `isbn10Pattern.FindStringSubmatch`. -/
def scan10 (prevW : Bool) : Str → Option Str
  | [] => none
  | c :: t =>
    match (if prevW != isWordChar c then tryAt10 (c :: t) else none) with
    | some r => some r
    | none => scan10 (isWordChar c) t

/-- Case-insensitive literal match (the keyword is given lowercase). -/
def matchLit : Str → Str → Option Str
  | [], l => some l
  | _ :: _, [] => none
  | k :: kt, c :: ct => if c.toLower = k then matchLit kt ct else none

/-- After `\s+` has consumed its first mandatory whitespace character:
either the next character can start the capture `[^,\n]+`, or it is
further whitespace and we keep looking. -/
def capOK : Str → Bool
  | [] => false
  | c :: t => (!(decide (c = ',') || decide (c = '\n'))) || (isRegexSpace c && capOK t)

/-- `\s+([^,\n]+)` after an author keyword: at least one whitespace
character, then at least one character that is neither a comma nor a
newline. -/
def afterKw : Str → Bool
  | [] => false
  | c :: t => isRegexSpace c && capOK t

/-- `(?:by|author:|written by)\s+([^,\n]+)` tried at one position. -/
def tryAuthorAt (l : Str) : Bool :=
  (match matchLit ['b', 'y'] l with
   | some r => afterKw r
   | none => false) ||
  (match matchLit ['a', 'u', 't', 'h', 'o', 'r', ':'] l with
   | some r => afterKw r
   | none => false) ||
  (match matchLit ['w', 'r', 'i', 't', 't', 'e', 'n', ' ', 'b', 'y'] l with
   | some r => afterKw r
   | none => false)

/-- `authorPattern.FindStringSubmatch` used only as an existence test. -/
def scanAuthor (prevW : Bool) : Str → Bool
  | [] => false
  | c :: t =>
    (if prevW != isWordChar c then tryAuthorAt (c :: t) else false) ||
    scanAuthor (isWordChar c) t

/-- `cleanISBN`: remove all dashes and spaces. -/
def cleanISBN (isbn : Str) : Str :=
  isbn.filter (fun c => !(decide (c = '-')) && !(decide (c = ' ')))

/-- `isAllDigits`. -/
def isAllDigits (s : Str) : Bool := s.all isDigitChar

/-- `validateISBN10`: ten digits, no checksum. -/
def validateISBN10 (isbn : Str) : Bool :=
  decide (isbn.length = 10) && isAllDigits isbn

/-- `validateISBN13`: thirteen digits beginning with 978 or 979. -/
def validateISBN13 (isbn : Str) : Bool :=
  (decide (isbn.length = 13) && isAllDigits isbn) &&
  (List.isPrefixOf ['9', '7', '8'] isbn || List.isPrefixOf ['9', '7', '9'] isbn)

/-- `containsNumbers`. -/
def containsNumbers (s : Str) : Bool := s.any isDigitChar

/-- `bookid.SearchType`. -/
inductive SearchType where
  | isbn
  | titleAuthor
  | title
  | generalQuery
  deriving DecidableEq, Repr

/-- The ISBN-13 block of `ParseQuery`: if the pattern matches and the
cleaned match validates, produce the result; otherwise fall through. -/
def isbn13Stage (cleanInput : Str) : Option (Str × SearchType × Str) :=
  match scan13 false cleanInput with
  | some m =>
    if validateISBN13 (cleanISBN m) then
      some ("isbn:".toList ++ cleanISBN m, SearchType.isbn, cleanISBN m)
    else none
  | none => none

/-- The ISBN-10 block of `ParseQuery`. -/
def isbn10Stage (cleanInput : Str) : Option (Str × SearchType × Str) :=
  match scan10 false cleanInput with
  | some m =>
    if validateISBN10 (cleanISBN m) then
      some ("isbn:".toList ++ cleanISBN m, SearchType.isbn, cleanISBN m)
    else none
  | none => none

/-- `ParseQuery` from `googlebooks/parser.go`. -/
def parseQuery (input : Str) : Str × SearchType × Str :=
  match isbn13Stage (trimSpace input) with
  | some r => r
  | none =>
    match isbn10Stage (trimSpace input) with
    | some r => r
    | none =>
      if scanAuthor false (trimSpace input) then
        (trimSpace input, SearchType.titleAuthor, [])
      else if !containsNumbers (trimSpace input) &&
          decide ((trimSpace input).length < 100) then
        ("intitle:\"".toList ++ trimSpace input ++ ['"'], SearchType.title, [])
      else
        (trimSpace input, SearchType.generalQuery, [])

/-! ## Result scorer and projection (`googlebooks/client.go`)

`float64` arithmetic is modelled with exact rationals; the Go nil pointer
for `VolumeInfo` is modelled with `Option`. -/

/-- One entry of `volumeInfo.industryIdentifiers` (`idType` stands for the
Go field `Type`). -/
structure IndustryIdentifier where
  idType : Str
  identifier : Str
  deriving DecidableEq, Repr

/-- `volumeInfo.imageLinks`. -/
structure ImageLinks where
  thumbnail : Str
  smallThumbnail : Str
  deriving DecidableEq, Repr

/-- The fields of `books.Volume.VolumeInfo` read by the projection. -/
structure VolumeInfo where
  title : Str
  authors : List Str
  industryIdentifiers : List IndustryIdentifier
  publisher : Str
  language : Str
  publishedDate : Str
  imageLinks : Option ImageLinks
  deriving DecidableEq, Repr

/-- `books.Volume`: `volumeInfo = none` models a nil `VolumeInfo` pointer. -/
structure Volume where
  id : Str
  volumeInfo : Option VolumeInfo
  deriving DecidableEq, Repr

/-- `bookid.BookResult` (the opaque raw-payload field is set outside the
projection and is not modelled). -/
structure BookResult where
  title : Str
  authors : List Str
  isbn10 : Str
  isbn13 : Str
  publisher : Str
  publishedYear : Int
  language : Str
  googleBooksVolumeID : Str
  thumbnailURL : Str
  confidence : ℚ
  searchType : SearchType
  deriving DecidableEq, Repr

/-- The `baseConfidence` map in `calculateConfidence`: only
`SearchTypeISBN` and `SearchTypeGeneralQuery` have entries; a Go map
lookup on a missing key yields the zero value `0.0`. -/
def baseConfidence : SearchType → ℚ
  | SearchType.isbn => 0.95
  | SearchType.generalQuery => 0.70
  | _ => 0

/-- `dataPoints` out of the fixed `totalPoints = 4` completeness signals. -/
def completenessCount (vi : VolumeInfo) : Nat :=
  (if vi.title ≠ [] then 1 else 0) +
  (if vi.authors.length > 0 then 1 else 0) +
  (if vi.industryIdentifiers.length > 0 then 1 else 0) +
  (if vi.publisher ≠ [] then 1 else 0)

/-- `calculateConfidence`: base confidence, multiplied by
`0.7 + 0.3 * completeness` only when `VolumeInfo` is non-nil. -/
def calculateConfidence (searchType : SearchType) (volume : Volume) : ℚ :=
  let confidence := baseConfidence searchType
  match volume.volumeInfo with
  | some vi => confidence * (0.7 + 0.3 * ((completenessCount vi : ℚ) / 4))
  | none => confidence

/-- The ISBN-extraction loop of `volumeToBookResult`: a `switch` on each
identifier entry, later entries overwriting earlier ones. -/
def extractISBNs (ids : List IndustryIdentifier) : Str × Str :=
  ids.foldl
    (fun acc i =>
      if i.idType = "ISBN_10".toList then (i.identifier, acc.2)
      else if i.idType = "ISBN_13".toList then (acc.1, i.identifier)
      else acc)
    ([], [])

/-- Digit-string value for `strconv.Atoi`: fails on empty or non-digit
input (64-bit overflow is not modelled; overflowing values are rejected
by `extractYear`'s range check exactly as Go's overflow error is). -/
def digitsVal (s : Str) : Option Nat :=
  if s ≠ [] ∧ s.all isDigitChar then
    some (s.foldl (fun a c => a * 10 + (c.toNat - '0'.toNat)) 0)
  else none

/-- `strconv.Atoi`: an optional leading sign, then decimal digits. -/
def atoi : Str → Option Int
  | [] => none
  | c :: r =>
    if c = '+' then (digitsVal r).map Int.ofNat
    else if c = '-' then (digitsVal r).map (fun n => -(Int.ofNat n : Int))
    else (digitsVal (c :: r)).map Int.ofNat

/-- The `strings.Split(dateStr, "-")` fallback of `extractYear`:
`parts[0]` is the prefix before the first dash. -/
def extractYearFromParts (dateStr : Str) : Int :=
  match atoi (dateStr.takeWhile (fun c => !(decide (c = '-')))) with
  | some year => if 1000 < year ∧ year < 3000 then year else 0
  | none => 0

/-- `extractYear`: whole string as a year first, then the leading
dash-separated part; only years strictly between 1000 and 3000. -/
def extractYear (dateStr : Str) : Int :=
  match atoi dateStr with
  | some year =>
    if 1000 < year ∧ year < 3000 then year else extractYearFromParts dateStr
  | none => extractYearFromParts dateStr

/-- `ensureHTTPS`: rewrite only a leading `http://` scheme. -/
def ensureHTTPS (url : Str) : Str :=
  if url = [] then []
  else if List.isPrefixOf "http://".toList url then
    "https://".toList ++ url.drop ("http://".length)
  else url

/-- `volumeToBookResult`.  The Go function dereferences
`volume.VolumeInfo` with no nil guard; `none` models the resulting nil
pointer panic. -/
def volumeToBookResult (volume : Volume) (searchType : SearchType)
    (detectedISBN : Str) : Option BookResult :=
  match volume.volumeInfo with
  | none => none
  | some vi =>
    let e := extractISBNs vi.industryIdentifiers
    let i :=
      if detectedISBN ≠ [] ∧ e.1 = [] ∧ e.2 = [] then
        if detectedISBN.length = 10 then (detectedISBN, e.2)
        else if detectedISBN.length = 13 then (e.1, detectedISBN)
        else e
      else e
    let year := if vi.publishedDate ≠ [] then extractYear vi.publishedDate else 0
    let thumb :=
      match vi.imageLinks with
      | some il =>
        if il.thumbnail ≠ [] then ensureHTTPS il.thumbnail
        else if il.smallThumbnail ≠ [] then ensureHTTPS il.smallThumbnail
        else []
      | none => []
    some
      { title := vi.title
        authors := vi.authors
        isbn10 := i.1
        isbn13 := i.2
        publisher := vi.publisher
        publishedYear := year
        language := vi.language
        googleBooksVolumeID := volume.id
        thumbnailURL := thumb
        confidence := calculateConfidence searchType volume
        searchType := searchType }

/-- The input-validation prefix of `Client.Search`: an empty query is an
error (`none`) before classification runs; otherwise the query is
classified.  The network call itself is out of scope. -/
def searchQueryCheck (query : Str) : Option (Str × SearchType × Str) :=
  if query = [] then none else some (parseQuery query)

/-! ## Claim-side definitions

These follow the wording of the specification, to be compared with the
definitions translated from the source. -/

/-- The four-tier base-confidence table asserted by the spec
(Identifier 0.95, TitleAuthor 0.85, Title 0.70, General 0.50). -/
def fourTierBase : SearchType → ℚ
  | SearchType.isbn => 0.95
  | SearchType.titleAuthor => 0.85
  | SearchType.title => 0.70
  | SearchType.generalQuery => 0.50

/-- The spec's completeness fraction: count of the four binary signals
(non-empty title, non-empty author list, at least one identifier,
non-empty publisher) divided by 4. -/
def claimCompleteness (vi : VolumeInfo) : ℚ :=
  ((if vi.title ≠ [] then (1 : ℚ) else 0) +
   (if vi.authors.length > 0 then (1 : ℚ) else 0) +
   (if vi.industryIdentifiers.length > 0 then (1 : ℚ) else 0) +
   (if vi.publisher ≠ [] then (1 : ℚ) else 0)) / 4

/-- The score the spec claims: `base(m) * (0.7 + 0.3 * completeness(r))`
with the four-tier table. -/
def fourTierScore (m : SearchType) (vi : VolumeInfo) : ℚ :=
  fourTierBase m * (0.7 + 0.3 * claimCompleteness vi)

/-- The base table the code actually implements: the two map entries,
with the two missing modes defaulting to the zero value. -/
def actualBase : SearchType → ℚ
  | SearchType.isbn => 0.95
  | SearchType.titleAuthor => 0
  | SearchType.title => 0
  | SearchType.generalQuery => 0.70

/-- The spec's scoring formula over the actual (two-entry) base table. -/
def actualTierScore (m : SearchType) (vi : VolumeInfo) : ℚ :=
  actualBase m * (0.7 + 0.3 * claimCompleteness vi)

/-- A candidate record with every completeness signal absent. -/
def emptyVi : VolumeInfo :=
  { title := [], authors := [], industryIdentifiers := [], publisher := []
    language := [], publishedDate := [], imageLinks := none }

/-! ## Claim-side and proof-support definitions -/

/-- The published year as the spec describes it: the leading token before
the first dash, parsed as a number, accepted only strictly between 1000
and 3000, else left unset. -/
def specPublishedYear (dateStr : Str) : Int :=
  match atoi (dateStr.takeWhile (fun c => !(decide (c = '-')))) with
  | some year => if 1000 < year ∧ year < 3000 then year else 0
  | none => 0

/-- A sample record whose date has a leading year token. -/
def sampleVi7 : VolumeInfo :=
  { emptyVi with publishedDate := "2025-03-01".toList }

/-- The projection of `sampleVi7`, written with the exact field
expressions the projection produces. -/
def sampleRes7 : BookResult :=
  { title := [], authors := [], isbn10 := [], isbn13 := [], publisher := []
    publishedYear := extractYear "2025-03-01".toList, language := []
    googleBooksVolumeID := [], thumbnailURL := []
    confidence := calculateConfidence SearchType.title ⟨[], some sampleVi7⟩
    searchType := SearchType.title }

/-- A candidate record whose identifier list has an ISBN-10 entry that is
not the detected identifier. -/
def cexVi5 : VolumeInfo :=
  { emptyVi with
    industryIdentifiers := [⟨"ISBN_10".toList, "0743273567".toList⟩] }

/-- Character shapes observed by the matchers after the `97[89]` literal. -/
inductive Glyph where
  | dig
  | sep
  | wrd
  | oth
  deriving DecidableEq, Repr

def shapeOf (c : Char) : Glyph :=
  if isDigitChar c then Glyph.dig
  else if isSepChar c then Glyph.sep
  else if isWordChar c then Glyph.wrd
  else Glyph.oth

def gDig : Glyph → Bool
  | Glyph.dig => true
  | _ => false

def gSep : Glyph → Bool
  | Glyph.sep => true
  | _ => false

def gWord : Glyph → Bool
  | Glyph.dig => true
  | Glyph.wrd => true
  | _ => false

/-- Shape-equality of inputs. -/
def ShEq (l l' : Str) : Prop := l.map shapeOf = l'.map shapeOf

/-- Shape-equality of matcher results. -/
def OShEq (o o' : Option Str) : Prop :=
  o.map (List.map shapeOf) = o'.map (List.map shapeOf)

/-- A concrete representative of one separator/grouping configuration
of the part of a rendered ISBN-13 after the `97[89]` prefix. -/
def concreteTail (a b c : Nat) (t1 t2 t3 t4 : Bool) : Str :=
  (if t1 then ['-'] else []) ++ List.replicate a '0' ++
  (if t2 then ['-'] else []) ++ List.replicate b '0' ++
  (if t3 then ['-'] else []) ++ List.replicate c '0' ++
  (if t4 then ['-'] else []) ++ ['0']

/-- A separator slot of a rendered ISBN: absent, a hyphen, or a space. -/
def sepPiece (s : Str) : Prop := s = [] ∨ s = ['-'] ∨ s = [' ']

/-! ## Helper lemmas -/

theorem completenessCount_le_four (vi : VolumeInfo) : completenessCount vi ≤ 4 := by
  unfold completenessCount
  split_ifs <;> omega

theorem calculateConfidence_nonneg_le_one (st : SearchType) (v : Volume) :
    0 ≤ calculateConfidence st v ∧ calculateConfidence st v ≤ 1 := by
  obtain ⟨vid, vi?⟩ := v
  have hb : 0 ≤ baseConfidence st ∧ baseConfidence st ≤ 1 := by
    cases st <;> norm_num [baseConfidence]
  cases vi? with
  | none => simpa [calculateConfidence] using hb
  | some vi =>
    have h4 : (completenessCount vi : ℚ) ≤ 4 := by
      exact_mod_cast completenessCount_le_four vi
    have h0 : (0 : ℚ) ≤ (completenessCount vi : ℚ) := by positivity
    simp only [calculateConfidence]
    constructor
    · have : (0 : ℚ) ≤ 0.7 + 0.3 * ((completenessCount vi : ℚ) / 4) := by linarith
      exact mul_nonneg hb.1 this
    · have hm : 0.7 + 0.3 * ((completenessCount vi : ℚ) / 4) ≤ 1 := by linarith
      calc baseConfidence st * (0.7 + 0.3 * ((completenessCount vi : ℚ) / 4))
          ≤ 1 * 1 := by
            apply mul_le_mul hb.2 hm _ (by norm_num)
            linarith
        _ = 1 := by norm_num

/-! ## C1 -/

/-- C1 counterexample: for mode `TitleAuthor` and an empty candidate
record, the code computes confidence 0 (the map has no entry for that
mode), while the claimed four-tier formula gives 0.85 × 0.7 = 0.595. -/
theorem c1_counterexample :
    calculateConfidence SearchType.titleAuthor ⟨[], some emptyVi⟩ = 0 ∧
    calculateConfidence SearchType.titleAuthor ⟨[], some emptyVi⟩ ≠
      fourTierScore SearchType.titleAuthor emptyVi := by
  constructor <;>
    norm_num [calculateConfidence, baseConfidence, completenessCount, fourTierScore,
      fourTierBase, claimCompleteness, emptyVi]

/-- C1 amended: for every mode and candidate record (with volume info
present), `calculateConfidence` equals `base * (0.7 + 0.3 * completeness)`
where the base table has only two entries — Identifier 0.95 and
General 0.70 — and TitleAuthor and Title default to the zero value 0. -/
theorem c1_amended_score_formula (st : SearchType) (vid : Str) (vi : VolumeInfo) :
    calculateConfidence st ⟨vid, some vi⟩ = actualTierScore st vi := by
  cases st <;>
    · simp only [calculateConfidence, actualTierScore, actualBase, baseConfidence,
        completenessCount, claimCompleteness]
      push_cast
      split_ifs <;> ring

/-! ## C2 -/

/-- C2 counterexample: for mode `TitleAuthor` the score is 0, outside the
claimed interval [0.35, 0.95]. -/
theorem c2_counterexample :
    ¬ (0.35 ≤ calculateConfidence SearchType.titleAuthor ⟨[], some emptyVi⟩ ∧
       calculateConfidence SearchType.titleAuthor ⟨[], some emptyVi⟩ ≤ 0.95) := by
  norm_num [calculateConfidence, baseConfidence, completenessCount, emptyVi]

/-- C2 amended: the score lies within [0.35, 0.95] for the modes
Identifier and General; for TitleAuthor and Title it is exactly 0
(the base-confidence map has no entry for them). -/
theorem c2_amended_score_bounds (v : Volume) :
    (0.35 ≤ calculateConfidence SearchType.isbn v ∧
      calculateConfidence SearchType.isbn v ≤ 0.95) ∧
    (0.35 ≤ calculateConfidence SearchType.generalQuery v ∧
      calculateConfidence SearchType.generalQuery v ≤ 0.95) ∧
    calculateConfidence SearchType.titleAuthor v = 0 ∧
    calculateConfidence SearchType.title v = 0 := by
  obtain ⟨vid, vi?⟩ := v
  cases vi? with
  | none => norm_num [calculateConfidence, baseConfidence]
  | some vi =>
    have h4 : (completenessCount vi : ℚ) ≤ 4 := by
      exact_mod_cast completenessCount_le_four vi
    have h0 : (0 : ℚ) ≤ (completenessCount vi : ℚ) := by positivity
    simp only [calculateConfidence, baseConfidence]
    refine ⟨⟨?_, ?_⟩, ⟨?_, ?_⟩, by ring, by ring⟩ <;> nlinarith

/-! ## C8 -/

/-- C8: every successfully projected `BookResult` has confidence in
[0, 1] and carries exactly the `SearchType` the classification chose. -/
theorem c8_result_invariants (v : Volume) (st : SearchType) (d : Str)
    (r : BookResult) (h : volumeToBookResult v st d = some r) :
    (0 ≤ r.confidence ∧ r.confidence ≤ 1) ∧ r.searchType = st := by
  obtain ⟨vid, vi?⟩ := v
  cases vi? with
  | none => simp [volumeToBookResult] at h
  | some vi =>
    simp only [volumeToBookResult] at h
    obtain rfl := (Option.some_inj.mp h).symm
    exact ⟨calculateConfidence_nonneg_le_one st ⟨vid, some vi⟩, rfl⟩

/-- C8 witness at a concrete volume. -/
theorem c8_result_invariants_witness :
    ((0 ≤ (BookResult.confidence
        { title := [], authors := [], isbn10 := [], isbn13 := "9780743273565".toList
          publisher := [], publishedYear := 0, language := [], googleBooksVolumeID := []
          thumbnailURL := []
          confidence := calculateConfidence SearchType.isbn ⟨[], some emptyVi⟩
          searchType := SearchType.isbn }) ∧
      (BookResult.confidence
        { title := [], authors := [], isbn10 := [], isbn13 := "9780743273565".toList
          publisher := [], publishedYear := 0, language := [], googleBooksVolumeID := []
          thumbnailURL := []
          confidence := calculateConfidence SearchType.isbn ⟨[], some emptyVi⟩
          searchType := SearchType.isbn }) ≤ 1) ∧
     BookResult.searchType
        { title := [], authors := [], isbn10 := [], isbn13 := "9780743273565".toList
          publisher := [], publishedYear := 0, language := [], googleBooksVolumeID := []
          thumbnailURL := []
          confidence := calculateConfidence SearchType.isbn ⟨[], some emptyVi⟩
          searchType := SearchType.isbn } = SearchType.isbn) :=
  c8_result_invariants ⟨[], some emptyVi⟩ SearchType.isbn "9780743273565".toList _
    rfl

/-! ## C10 -/

/-- C10: projection is total exactly when `VolumeInfo` is present — a nil
`VolumeInfo` makes `volumeToBookResult` fail (the unguarded dereference),
while `calculateConfidence` guards against nil and then returns the bare
base confidence; when `VolumeInfo` is present the projection succeeds and
the completeness multiplier is always applied. -/
theorem c10_nil_volume_info (vid : Str) (st : SearchType) (d : Str) (vi : VolumeInfo) :
    volumeToBookResult ⟨vid, none⟩ st d = none ∧
    calculateConfidence st ⟨vid, none⟩ = baseConfidence st ∧
    ∃ r, volumeToBookResult ⟨vid, some vi⟩ st d = some r ∧
      r.confidence =
        baseConfidence st * (0.7 + 0.3 * ((completenessCount vi : ℚ) / 4)) :=
  ⟨rfl, rfl, _, rfl, rfl⟩

/-! ## C7 -/

theorem takeWhile_eq_self_of_all {p : Char → Bool} {l : Str}
    (h : ∀ c ∈ l, p c = true) : l.takeWhile p = l := by
  induction l with
  | nil => rfl
  | cons a t ih =>
    simp [List.takeWhile_cons, h a (List.mem_cons_self a t),
      ih (fun c hc => h c (List.mem_cons_of_mem a hc))]

theorem digitsVal_some {s : Str} {n : Nat} (h : digitsVal s = some n) :
    s ≠ [] ∧ ∀ c ∈ s, isDigitChar c = true := by
  unfold digitsVal at h
  split at h
  · next hc => exact ⟨hc.1, List.all_eq_true.mp hc.2⟩
  · exact absurd h (by simp)

theorem isDigitChar_ne_dash {c : Char} (h : isDigitChar c = true) :
    (!(decide (c = '-'))) = true := by
  simp only [Bool.not_eq_true', decide_eq_false_iff_not]
  intro hc
  rw [hc] at h
  exact absurd h (by decide)

/-- A positive `Atoi` result is unchanged by cutting at the first dash:
the parsed string contains no dash. -/
theorem atoi_takeWhile_of_pos {d : Str} {y : Int} (h : atoi d = some y)
    (hy : 1000 < y) : atoi (d.takeWhile (fun c => !(decide (c = '-')))) = some y := by
  match d with
  | [] => exact absurd h (by simp [atoi])
  | c :: r =>
    by_cases hp : c = '+'
    · subst hp
      have hform : atoi ('+' :: r) = (digitsVal r).map Int.ofNat := rfl
      rw [hform] at h
      obtain ⟨n, hn, rfl⟩ := Option.map_eq_some'.mp h
      have hd := digitsVal_some hn
      have ht := takeWhile_eq_self_of_all (p := fun c => !(decide (c = '-')))
        (l := '+' :: r) ?all
      case all =>
        intro c hc
        rcases List.mem_cons.mp hc with hc | hc
        · subst hc; decide
        · exact isDigitChar_ne_dash (hd.2 c hc)
      rw [ht, hform]
      exact h
    · by_cases hm : c = '-'
      · subst hm
        have hform : atoi ('-' :: r) =
            (digitsVal r).map (fun n => -(Int.ofNat n : Int)) := rfl
        rw [hform] at h
        obtain ⟨n, _, rfl⟩ := Option.map_eq_some'.mp h
        have h0 : (0 : Int) ≤ Int.ofNat n := Int.ofNat_nonneg n
        omega
      · have hform : atoi (c :: r) = (digitsVal (c :: r)).map Int.ofNat := by
          simp [atoi, hp, hm]
        rw [hform] at h
        obtain ⟨n, hn, rfl⟩ := Option.map_eq_some'.mp h
        have hd := digitsVal_some hn
        rw [takeWhile_eq_self_of_all (fun c hc => isDigitChar_ne_dash (hd.2 c hc))]
        rw [hform]
        exact h

theorem extractYear_eq_specYear (d : Str) : extractYear d = specPublishedYear d := by
  unfold extractYear
  cases h : atoi d with
  | none => rfl
  | some y =>
    show (if 1000 < y ∧ y < 3000 then y else extractYearFromParts d) =
      specPublishedYear d
    by_cases hr : 1000 < y ∧ y < 3000
    · rw [if_pos hr]
      unfold specPublishedYear
      rw [atoi_takeWhile_of_pos h hr.1]
      show y = if 1000 < y ∧ y < 3000 then y else 0
      rw [if_pos hr]
    · rw [if_neg hr]
      rfl

/-- C7: the projected published year is the leading numeric token of the
date string when that token is a year strictly between 1000 and 3000, and
0 (unset) otherwise; projection never fails on a malformed date. -/
theorem c7_published_year :
    (∀ dateStr : Str, extractYear dateStr = specPublishedYear dateStr) ∧
    (∀ (vid : Str) (vi : VolumeInfo) (st : SearchType) (d : Str) (r : BookResult),
      volumeToBookResult ⟨vid, some vi⟩ st d = some r →
      r.publishedYear = specPublishedYear vi.publishedDate) := by
  refine ⟨extractYear_eq_specYear, ?_⟩
  intro vid vi st d r h
  simp only [volumeToBookResult] at h
  obtain rfl := (Option.some_inj.mp h).symm
  by_cases hd : vi.publishedDate ≠ []
  · simp only [if_pos hd]
    exact extractYear_eq_specYear _
  · simp only [if_neg hd]
    rw [not_ne_iff.mp hd]
    rfl
/-- C7 witness at a concrete date string. -/
theorem c7_published_year_witness :
    sampleRes7.publishedYear = specPublishedYear "2025-03-01".toList :=
  c7_published_year.2 [] sampleVi7 SearchType.title [] sampleRes7 rfl

/-! ## C5 -/

/-- C5 counterexample: the detected 13-digit identifier
`9780743273565` is absent from the record's identifier list, yet the
projection does **not** write it into the ISBN-13 slot, because back-fill
only happens when both extracted slots are empty and here the ISBN-10
slot was filled from the list. -/
theorem c5_counterexample :
    (volumeToBookResult ⟨[], some cexVi5⟩ SearchType.isbn
        "9780743273565".toList).map BookResult.isbn13 = some [] ∧
    cexVi5.industryIdentifiers.all
      (fun i => i.identifier ≠ "9780743273565".toList) = true ∧
    ("9780743273565".toList : Str) ≠ [] := by
  refine ⟨rfl, by decide, by decide⟩

/-- C5 amended: the detected identifier is back-filled into the matching
slot only when the record's identifier list produced no ISBN-10 and no
ISBN-13 at all (not merely when the list lacks the detected value). -/
theorem c5_backfill_amended (vid : Str) (vi : VolumeInfo) (st : SearchType)
    (d : Str) (r : BookResult)
    (h : volumeToBookResult ⟨vid, some vi⟩ st d = some r)
    (he : extractISBNs vi.industryIdentifiers = ([], []))
    (hd : d ≠ []) :
    (d.length = 10 → r.isbn10 = d) ∧ (d.length = 13 → r.isbn13 = d) := by
  simp only [volumeToBookResult, he] at h
  obtain rfl := (Option.some_inj.mp h).symm
  constructor <;> intro hlen <;> simp [hd, hlen]

/-- C5 witness: a record with no identifiers and a detected ISBN-10. -/
theorem c5_backfill_amended_witness :
    (("0743273567".toList : Str).length = 10 →
      BookResult.isbn10
        { title := [], authors := [], isbn10 := "0743273567".toList, isbn13 := []
          publisher := [], publishedYear := 0, language := [], googleBooksVolumeID := []
          thumbnailURL := []
          confidence := calculateConfidence SearchType.isbn ⟨[], some emptyVi⟩
          searchType := SearchType.isbn } = "0743273567".toList) ∧
    (("0743273567".toList : Str).length = 13 →
      BookResult.isbn13
        { title := [], authors := [], isbn10 := "0743273567".toList, isbn13 := []
          publisher := [], publishedYear := 0, language := [], googleBooksVolumeID := []
          thumbnailURL := []
          confidence := calculateConfidence SearchType.isbn ⟨[], some emptyVi⟩
          searchType := SearchType.isbn } = "0743273567".toList) :=
  c5_backfill_amended [] emptyVi SearchType.isbn "0743273567".toList _
    rfl rfl (by decide)

/-! ## C9 -/

theorem trimSpace_of_all_space {l : Str} (h : l.all isTrimSpace = true) :
    trimSpace l = [] := by
  have hd : l.dropWhile isTrimSpace = [] := by
    induction l with
    | nil => rfl
    | cons a t ih =>
      simp only [List.all_cons, Bool.and_eq_true] at h
      rw [List.dropWhile_cons, h.1]
      exact ih h.2
  simp [trimSpace, hd]

/-- C9: `Search` rejects only the literally empty query; a non-empty,
all-whitespace query passes the gate, trims to the empty string, and is
classified as mode `Title` with rewritten query `intitle:""`. -/
theorem c9_whitespace_query (input : Str) (hne : input ≠ [])
    (hsp : input.all isTrimSpace = true) :
    searchQueryCheck input =
      some ("intitle:\"\"".toList, SearchType.title, []) := by
  have ht : trimSpace input = [] := trimSpace_of_all_space hsp
  simp only [searchQueryCheck, if_neg hne]
  simp [parseQuery, ht, isbn13Stage, isbn10Stage, scan13, scan10, scanAuthor,
    containsNumbers]

/-- C9 witness: a single space. -/
theorem c9_whitespace_query_witness :
    searchQueryCheck " ".toList =
      some ("intitle:\"\"".toList, SearchType.title, []) :=
  c9_whitespace_query " ".toList (by decide) (by decide)

/-! ## C6 -/

/-- C6 counterexample: on an input with a leading space, an author
marker and no identifier, the rewritten query is the *trimmed* input,
not the original, unmodified input string. -/
theorem c6_counterexample :
    (parseQuery " The Great Gatsby by F. Scott Fitzgerald".toList).2.1 =
      SearchType.titleAuthor ∧
    (parseQuery " The Great Gatsby by F. Scott Fitzgerald".toList).1 ≠
      " The Great Gatsby by F. Scott Fitzgerald".toList := by
  constructor <;> decide

/-- C6 amended: when neither identifier stage fires and an author marker
matches, the result is mode `TitleAuthor` with the whitespace-trimmed
input as the rewritten query (identical to the original input only when
that input has no surrounding whitespace). -/
theorem c6_author_marker_amended (input : Str)
    (h13 : isbn13Stage (trimSpace input) = none)
    (h10 : isbn10Stage (trimSpace input) = none)
    (ha : scanAuthor false (trimSpace input) = true) :
    parseQuery input = (trimSpace input, SearchType.titleAuthor, []) := by
  simp [parseQuery, h13, h10, ha]

/-- C6 witness: the canonical title-plus-author query. -/
theorem c6_author_marker_amended_witness :
    parseQuery "The Great Gatsby by F. Scott Fitzgerald".toList =
      (trimSpace "The Great Gatsby by F. Scott Fitzgerald".toList,
        SearchType.titleAuthor, []) :=
  c6_author_marker_amended "The Great Gatsby by F. Scott Fitzgerald".toList
    (by decide) (by decide) (by decide)

/-! ## C4 -/

theorem isbn13Stage_some {ci : Str} {r : Str × SearchType × Str}
    (h : isbn13Stage ci = some r) :
    r.2.1 = SearchType.isbn ∧ validateISBN13 r.2.2 = true := by
  unfold isbn13Stage at h
  split at h
  · split at h
    · next hv =>
      obtain rfl := Option.some_inj.mp h
      exact ⟨rfl, hv⟩
    · exact absurd h (by simp)
  · exact absurd h (by simp)

theorem isbn10Stage_some {ci : Str} {r : Str × SearchType × Str}
    (h : isbn10Stage ci = some r) :
    r.2.1 = SearchType.isbn ∧ r.2.2.length = 10 := by
  unfold isbn10Stage at h
  split at h
  · split at h
    · next hv =>
      obtain rfl := Option.some_inj.mp h
      refine ⟨rfl, ?_⟩
      unfold validateISBN10 at hv
      simp only [Bool.and_eq_true, decide_eq_true_eq] at hv
      exact hv.1
    · exact absurd h (by simp)
  · exact absurd h (by simp)

/-- C4 counterexample: `"977-1-234567-89-0"` is a 13-digit
identifier-shaped string with the invalid prefix 977, hyphenated at
grouping boundaries, yet classification does **not** fall through: the
ISBN-10 pattern matches the sub-span `977-1-234567` and the query is
classified as mode `Identifier` with detected identifier `9771234567`. -/
theorem c4_counterexample :
    parseQuery "977-1-234567-89-0".toList =
      ("isbn:9771234567".toList, SearchType.isbn, "9771234567".toList) := by
  decide

/-- C4 amended: an invalid-prefix candidate is never accepted as a
13-digit identifier — every detected identifier of length 13 starts with
978 or 979 — and an unhyphenated 13-digit 977 string does fall through to
`General`; but classification may still return mode `Identifier` for a
hyphenated invalid-prefix string via a 10-digit sub-match of the ISBN-10
pattern. -/
theorem c4_invalid_prefix_amended :
    (∀ (input q i : Str), parseQuery input = (q, SearchType.isbn, i) →
      i.length = 13 →
      List.isPrefixOf ['9', '7', '8'] i ∨ List.isPrefixOf ['9', '7', '9'] i) ∧
    parseQuery "9771234567890".toList =
      ("9771234567890".toList, SearchType.generalQuery, []) := by
  constructor
  · intro input q i h hlen
    unfold parseQuery at h
    cases h13 : isbn13Stage (trimSpace input) with
    | some r =>
      rw [h13] at h
      simp only at h
      obtain ⟨hty, hv⟩ := isbn13Stage_some h13
      rw [h] at hv
      unfold validateISBN13 at hv
      simp only [Bool.and_eq_true, Bool.or_eq_true] at hv
      exact hv.2
    | none =>
      rw [h13] at h
      simp only at h
      cases h10 : isbn10Stage (trimSpace input) with
      | some r =>
        rw [h10] at h
        simp only at h
        obtain ⟨hty, hl⟩ := isbn10Stage_some h10
        rw [h] at hl
        simp only at hl
        omega
      | none =>
        rw [h10] at h
        simp only at h
        split_ifs at h <;> simp [Prod.ext_iff] at h
  · decide

/-- C4 witness: a valid 13-digit detected identifier does start with 978. -/
theorem c4_invalid_prefix_amended_witness :
    List.isPrefixOf ['9', '7', '8'] "9780743273565".toList ∨
    List.isPrefixOf ['9', '7', '9'] "9780743273565".toList :=
  c4_invalid_prefix_amended.1 "9780743273565".toList "isbn:9780743273565".toList
    "9780743273565".toList (by decide) (by decide)

/-! ## C3

The positive half of C3 quantifies over all digit values, all grouping
splits `a + b + c = 9` within the pattern's group bounds, and all
separator choices.  The matcher's behaviour after the literal `97[89]`
depends only on each character's *shape* (digit / separator / word /
other), so the digit-generic statement reduces to a finite check over
the 25 × 16 shape configurations. -/

theorem digit_not_sep {c : Char} (h : isDigitChar c = true) : isSepChar c = false := by
  by_contra hs
  rw [Bool.not_eq_false] at hs
  unfold isSepChar isRegexSpace at hs
  simp only [Bool.or_eq_true, decide_eq_true_eq] at hs
  casesm* _ ∨ _ <;> subst_vars <;> exact absurd h (by decide)

theorem digit_word {c : Char} (h : isDigitChar c = true) : isWordChar c = true := by
  unfold isWordChar
  simp [h]

theorem sep_not_word {c : Char} (h : isSepChar c = true) : isWordChar c = false := by
  unfold isSepChar isRegexSpace at h
  simp only [Bool.or_eq_true, decide_eq_true_eq] at h
  casesm* _ ∨ _ <;> subst_vars <;> decide

theorem gDig_shapeOf (c : Char) : gDig (shapeOf c) = isDigitChar c := by
  unfold shapeOf
  by_cases h1 : isDigitChar c = true
  · rw [if_pos h1, h1]
    rfl
  · rw [if_neg h1]
    rw [Bool.not_eq_true] at h1
    rw [h1]
    split_ifs <;> rfl

theorem gSep_shapeOf (c : Char) : gSep (shapeOf c) = isSepChar c := by
  unfold shapeOf
  by_cases h1 : isDigitChar c = true
  · rw [if_pos h1, digit_not_sep h1]
    rfl
  · rw [if_neg h1]
    by_cases h2 : isSepChar c = true
    · rw [if_pos h2, h2]
      rfl
    · rw [if_neg h2]
      rw [Bool.not_eq_true] at h2
      rw [h2]
      split_ifs <;> rfl

theorem gWord_shapeOf (c : Char) : gWord (shapeOf c) = isWordChar c := by
  unfold shapeOf
  by_cases h1 : isDigitChar c = true
  · rw [if_pos h1, digit_word h1]
    rfl
  · rw [if_neg h1]
    by_cases h2 : isSepChar c = true
    · rw [if_pos h2, sep_not_word h2]
      rfl
    · rw [if_neg h2]
      by_cases h3 : isWordChar c = true
      · rw [if_pos h3, h3]
        rfl
      · rw [if_neg h3]
        rw [Bool.not_eq_true] at h3
        rw [h3]
        rfl

theorem ShEq.cons {c c' : Char} {t t' : Str} (h : ShEq (c :: t) (c' :: t')) :
    shapeOf c = shapeOf c' ∧ ShEq t t' := by
  simpa [ShEq, List.map_cons] using h

theorem sepOpt_resp (b : Bool) : ∀ {l l' : Str}, ShEq l l' →
    OShEq (sepOpt b l) (sepOpt b l') := by
  intro l l' h
  cases b with
  | false => simpa [sepOpt, OShEq] using h
  | true =>
    cases l with
    | nil =>
      cases l' with
      | nil => rfl
      | cons c' t' => exact absurd h (by simp [ShEq])
    | cons c t =>
      cases l' with
      | nil => exact absurd h (by simp [ShEq])
      | cons c' t' =>
        obtain ⟨hc, ht⟩ := ShEq.cons h
        have hsep : isSepChar c = isSepChar c' := by
          rw [← gSep_shapeOf, ← gSep_shapeOf, hc]
        simp only [sepOpt, OShEq]
        by_cases hs : isSepChar c = true
        · rw [if_pos hs, if_pos (hsep ▸ hs)]
          simpa [OShEq] using ht
        · rw [if_neg hs, if_neg (hsep ▸ hs)]

theorem digsTake_resp : ∀ (n : Nat) {l l' : Str}, ShEq l l' →
    OShEq (digsTake n l) (digsTake n l') := by
  intro n
  induction n with
  | zero => intro l l' h; simpa [digsTake, OShEq] using h
  | succ n ih =>
    intro l l' h
    cases l with
    | nil =>
      cases l' with
      | nil => rfl
      | cons c' t' => exact absurd h (by simp [ShEq])
    | cons c t =>
      cases l' with
      | nil => exact absurd h (by simp [ShEq])
      | cons c' t' =>
        obtain ⟨hc, ht⟩ := ShEq.cons h
        have hdig : isDigitChar c = isDigitChar c' := by
          rw [← gDig_shapeOf, ← gDig_shapeOf, hc]
        simp only [digsTake]
        by_cases hd : isDigitChar c = true
        · rw [if_pos hd, if_pos (hdig ▸ hd)]
          exact ih ht
        · rw [if_neg hd, if_neg (hdig ▸ hd)]
          rfl

theorem boundaryOK_resp : ∀ {t t' : Str}, ShEq t t' →
    boundaryOK t = boundaryOK t' := by
  intro t t' ht
  cases t with
  | nil =>
    cases t' with
    | nil => rfl
    | cons d' u' => exact absurd ht (by simp [ShEq])
  | cons d u =>
    cases t' with
    | nil => exact absurd ht (by simp [ShEq])
    | cons d' u' =>
      obtain ⟨hd, _⟩ := ShEq.cons ht
      have hw : isWordChar d = isWordChar d' := by
        rw [← gWord_shapeOf, ← gWord_shapeOf, hd]
      simp [boundaryOK, hw]

theorem lastCheck_resp : ∀ {l l' : Str}, ShEq l l' →
    OShEq (lastCheck l) (lastCheck l') := by
  intro l l' h
  cases l with
  | nil =>
    cases l' with
    | nil => rfl
    | cons c' t' => exact absurd h (by simp [ShEq])
  | cons c t =>
    cases l' with
    | nil => exact absurd h (by simp [ShEq])
    | cons c' t' =>
      obtain ⟨hc, ht⟩ := ShEq.cons h
      have hdig : isDigitChar c = isDigitChar c' := by
        rw [← gDig_shapeOf, ← gDig_shapeOf, hc]
      have hcond : (isDigitChar c && boundaryOK t) =
          (isDigitChar c' && boundaryOK t') := by
        rw [hdig, boundaryOK_resp ht]
      simp only [lastCheck]
      by_cases h2 : (isDigitChar c && boundaryOK t) = true
      · rw [if_pos h2, if_pos (hcond ▸ h2)]
        simpa [OShEq] using ht
      · rw [if_neg h2, if_neg (hcond ▸ h2)]
        rfl

theorem firstSome_resp {α : Type} {f f' : α → Option Str} :
    ∀ (xs : List α), (∀ x ∈ xs, OShEq (f x) (f' x)) →
    OShEq (firstSome f xs) (firstSome f' xs) := by
  intro xs
  induction xs with
  | nil => intro _; rfl
  | cons x xs ih =>
    intro h
    have hx := h x (List.mem_cons_self x xs)
    cases hfx : f x with
    | some r =>
      cases hf'x : f' x with
      | some r' =>
        rw [hfx, hf'x] at hx
        simpa [firstSome, hfx, hf'x] using hx
      | none =>
        rw [hfx, hf'x] at hx
        exact absurd hx (by simp [OShEq])
    | none =>
      cases hf'x : f' x with
      | some r' =>
        rw [hfx, hf'x] at hx
        exact absurd hx (by simp [OShEq])
      | none =>
        simpa [firstSome, hfx, hf'x] using
          ih (fun y hy => h y (List.mem_cons_of_mem x hy))

theorem bind_resp {o o' : Option Str} (ho : OShEq o o') {k k' : Str → Option Str}
    (hk : ∀ a a', ShEq a a' → OShEq (k a) (k' a')) :
    OShEq (o.bind k) (o'.bind k') := by
  cases o with
  | none =>
    cases o' with
    | none => rfl
    | some a' => exact absurd ho (by simp [OShEq])
  | some a =>
    cases o' with
    | none => exact absurd ho (by simp [OShEq])
    | some a' =>
      have ha : ShEq a a' := by simpa [OShEq, ShEq] using ho
      simpa using hk a a' ha

theorem attempt10_resp {l l' : Str} (h : ShEq l l') :
    OShEq (attempt10 l) (attempt10 l') := by
  unfold attempt10
  apply firstSome_resp
  intro a _
  apply bind_resp (digsTake_resp a h)
  intro x x' hx
  apply firstSome_resp
  intro s2 _
  apply bind_resp (sepOpt_resp s2 hx)
  intro y y' hy
  apply firstSome_resp
  intro b _
  apply bind_resp (digsTake_resp b hy)
  intro z z' hz
  apply firstSome_resp
  intro s3 _
  apply bind_resp (sepOpt_resp s3 hz)
  intro w w' hw
  apply firstSome_resp
  intro c _
  apply bind_resp (digsTake_resp c hw)
  intro v v' hv
  apply firstSome_resp
  intro s4 _
  apply bind_resp (sepOpt_resp s4 hv)
  intro u u' hu
  exact lastCheck_resp hu

theorem attemptTail_resp {l l' : Str} (h : ShEq l l') :
    OShEq (attemptTail l) (attemptTail l') := by
  unfold attemptTail
  apply firstSome_resp
  intro s1 _
  apply bind_resp (sepOpt_resp s1 h)
  intro x x' hx
  exact attempt10_resp hx

/-- On every admissible grouping and separator configuration, the tail
matcher consumes the entire rendered tail (checked by evaluation). -/
theorem attempt_concrete : ∀ (a b c : Nat), 1 ≤ a → a ≤ 5 → 1 ≤ b → b ≤ 7 →
    1 ≤ c → c ≤ 7 → a + b + c = 9 → ∀ (t1 t2 t3 t4 : Bool),
    attemptTail (concreteTail a b c t1 t2 t3 t4) = some [] := by
  intro a b c ha1 ha2 hb1 hb2 hc1 hc2 hsum
  interval_cases a <;> interval_cases b <;> interval_cases c <;>
    first
      | exact absurd hsum (by omega)
      | decide

theorem shapeOf_digit {c : Char} (h : isDigitChar c = true) :
    shapeOf c = Glyph.dig := by
  unfold shapeOf
  rw [if_pos h]

theorem map_shape_digits {ds : Str} (h : ∀ c ∈ ds, isDigitChar c = true) :
    ds.map shapeOf = List.replicate ds.length Glyph.dig := by
  induction ds with
  | nil => rfl
  | cons c t ih =>
    simp [List.map_cons, shapeOf_digit (h c (List.mem_cons_self c t)),
      ih (fun x hx => h x (List.mem_cons_of_mem c hx)), List.replicate_succ]

theorem sepPiece_shape {s : Str} (h : sepPiece s) :
    ∃ t : Bool, s.map shapeOf = (if t then [Glyph.sep] else []) := by
  rcases h with rfl | rfl | rfl
  · exact ⟨false, rfl⟩
  · exact ⟨true, by decide⟩
  · exact ⟨true, by decide⟩

theorem concreteTail_shape (a b c : Nat) (t1 t2 t3 t4 : Bool) :
    (concreteTail a b c t1 t2 t3 t4).map shapeOf =
      (if t1 then [Glyph.sep] else []) ++ List.replicate a Glyph.dig ++
      (if t2 then [Glyph.sep] else []) ++ List.replicate b Glyph.dig ++
      (if t3 then [Glyph.sep] else []) ++ List.replicate c Glyph.dig ++
      (if t4 then [Glyph.sep] else []) ++ [Glyph.dig] := by
  have h0 : shapeOf '0' = Glyph.dig := by decide
  have hd : shapeOf '-' = Glyph.sep := by decide
  unfold concreteTail
  simp [List.map_append, List.map_replicate, apply_ite (List.map shapeOf),
    h0, hd]

/-- The tail matcher consumes a whole rendered ISBN-13 tail: separator
slots hold a hyphen, a space or nothing, digit groups respect the
pattern's bounds and together hold the 10 digits after the prefix. -/
theorem attemptTail_render {A B C s1 s2 s3 s4 : Str} {dk : Char}
    (hA1 : 1 ≤ A.length) (hA2 : A.length ≤ 5)
    (hB1 : 1 ≤ B.length) (hB2 : B.length ≤ 7)
    (hC1 : 1 ≤ C.length) (hC2 : C.length ≤ 7)
    (hsum : A.length + B.length + C.length = 9)
    (hA : ∀ c ∈ A, isDigitChar c = true) (hB : ∀ c ∈ B, isDigitChar c = true)
    (hC : ∀ c ∈ C, isDigitChar c = true) (hdk : isDigitChar dk = true)
    (hp1 : sepPiece s1) (hp2 : sepPiece s2) (hp3 : sepPiece s3)
    (hp4 : sepPiece s4) :
    attemptTail (s1 ++ A ++ s2 ++ B ++ s3 ++ C ++ s4 ++ [dk]) = some [] := by
  obtain ⟨t1, h1⟩ := sepPiece_shape hp1
  obtain ⟨t2, h2⟩ := sepPiece_shape hp2
  obtain ⟨t3, h3⟩ := sepPiece_shape hp3
  obtain ⟨t4, h4⟩ := sepPiece_shape hp4
  have hsh : ShEq (s1 ++ A ++ s2 ++ B ++ s3 ++ C ++ s4 ++ [dk])
      (concreteTail A.length B.length C.length t1 t2 t3 t4) := by
    unfold ShEq
    rw [concreteTail_shape]
    simp only [List.map_append, h1, h2, h3, h4, map_shape_digits hA,
      map_shape_digits hB, map_shape_digits hC, List.map_cons, List.map_nil,
      shapeOf_digit hdk]
  have hconc := attempt_concrete A.length B.length C.length hA1 hA2 hB1 hB2
    hC1 hC2 hsum t1 t2 t3 t4
  have hresp := attemptTail_resp hsh
  rw [hconc] at hresp
  cases hat : attemptTail (s1 ++ A ++ s2 ++ B ++ s3 ++ C ++ s4 ++ [dk]) with
  | none =>
    rw [hat] at hresp
    exact absurd hresp (by simp [OShEq])
  | some r =>
    rw [hat] at hresp
    simp only [OShEq, Option.map_some', Option.some_inj, List.map_nil] at hresp
    cases r with
    | nil => rfl
    | cons x xs => simp at hresp

theorem digit_not_trim {c : Char} (h : isDigitChar c = true) :
    isTrimSpace c = false := by
  by_contra hs
  rw [Bool.not_eq_false] at hs
  unfold isTrimSpace at hs
  simp only [Bool.or_eq_true, decide_eq_true_eq] at hs
  casesm* _ ∨ _ <;> subst_vars <;> exact absurd h (by decide)

theorem trimSpace_cons_concat (a : Char) (m : Str) (b : Char)
    (ha : isTrimSpace a = false) (hb : isTrimSpace b = false) :
    trimSpace (a :: (m ++ [b])) = a :: (m ++ [b]) := by
  unfold trimSpace
  have h1 : List.dropWhile isTrimSpace (a :: (m ++ [b])) = a :: (m ++ [b]) := by
    simp [List.dropWhile_cons, ha]
  rw [h1]
  have h2 : (a :: (m ++ [b])).reverse = b :: (m.reverse ++ [a]) := by
    simp
  rw [h2]
  have h3 : List.dropWhile isTrimSpace (b :: (m.reverse ++ [a])) =
      b :: (m.reverse ++ [a]) := by
    simp [List.dropWhile_cons, hb]
  rw [h3, ← h2, List.reverse_reverse]

theorem digit_keep {c : Char} (h : isDigitChar c = true) :
    (!(decide (c = '-')) && !(decide (c = ' '))) = true := by
  have h1 : ¬ c = '-' := by
    intro e
    subst e
    exact absurd h (by decide)
  have h2 : ¬ c = ' ' := by
    intro e
    subst e
    exact absurd h (by decide)
  simp [h1, h2]

theorem cleanISBN_cons_digit {c : Char} {l : Str} (h : isDigitChar c = true) :
    cleanISBN (c :: l) = c :: cleanISBN l := by
  unfold cleanISBN
  simp [List.filter_cons, digit_keep h]

theorem cleanISBN_nil : cleanISBN [] = [] := rfl

theorem cleanISBN_append (l1 l2 : Str) :
    cleanISBN (l1 ++ l2) = cleanISBN l1 ++ cleanISBN l2 := by
  unfold cleanISBN
  exact List.filter_append l1 l2

theorem cleanISBN_digits {ds : Str} (h : ∀ c ∈ ds, isDigitChar c = true) :
    cleanISBN ds = ds := by
  induction ds with
  | nil => rfl
  | cons c t ih =>
    rw [cleanISBN_cons_digit (h c (List.mem_cons_self c t)),
      ih (fun x hx => h x (List.mem_cons_of_mem c hx))]

theorem sepPiece_clean {s : Str} (h : sepPiece s) : cleanISBN s = [] := by
  rcases h with rfl | rfl | rfl <;> decide

theorem scan13_cons_found {c : Char} {t r : Str}
    (hb : (false != isWordChar c) = true) (ht : tryAt13 (c :: t) = some r) :
    scan13 false (c :: t) = some r := by
  rw [scan13, if_pos hb, ht]

/-- C3 counterexample: the input `"978 9780743273565"` contains the valid
13-digit identifier `9780743273565` as a word-bounded substring, yet
`ParseQuery` classifies it as `General`: the leftmost regex match starts
at the leading `978` decoy, spans the whole text, cleans to 16 digits and
fails validation, and classification falls through. -/
theorem c3_counterexample :
    parseQuery "978 9780743273565".toList =
      ("978 9780743273565".toList, SearchType.generalQuery, []) := by
  decide

/-- C3 amended: for every input that consists exactly of a valid
formatted 13-digit identifier — prefix `97` then `8` or `9`, digit groups
of sizes 1–5, 1–7, 1–7 and a final check digit, with each boundary
optionally holding a hyphen or a single space — `ParseQuery` returns mode
`Identifier`, the cleaned 13-digit string as the detected identifier, and
a rewritten query containing that cleaned string.  (As a word-bounded
substring of longer text this can fail; see the counterexample.) -/
theorem c3_formatted_isbn13_amended (A B C s1 s2 s3 s4 : Str) (d3 dk : Char)
    (hA1 : 1 ≤ A.length) (hA2 : A.length ≤ 5)
    (hB1 : 1 ≤ B.length) (hB2 : B.length ≤ 7)
    (hC1 : 1 ≤ C.length) (hC2 : C.length ≤ 7)
    (hsum : A.length + B.length + C.length = 9)
    (hA : ∀ c ∈ A, isDigitChar c = true) (hB : ∀ c ∈ B, isDigitChar c = true)
    (hC : ∀ c ∈ C, isDigitChar c = true)
    (hd3 : d3 = '8' ∨ d3 = '9') (hdk : isDigitChar dk = true)
    (hp1 : sepPiece s1) (hp2 : sepPiece s2) (hp3 : sepPiece s3)
    (hp4 : sepPiece s4) :
    parseQuery ('9' :: '7' :: d3 :: (s1 ++ A ++ s2 ++ B ++ s3 ++ C ++ s4 ++ [dk])) =
      ("isbn:".toList ++ ('9' :: '7' :: d3 :: (A ++ B ++ C ++ [dk])),
        SearchType.isbn, '9' :: '7' :: d3 :: (A ++ B ++ C ++ [dk])) := by
  have hd3' : isDigitChar d3 = true := by
    rcases hd3 with rfl | rfl <;> decide
  have htrim : trimSpace
      ('9' :: '7' :: d3 :: (s1 ++ A ++ s2 ++ B ++ s3 ++ C ++ s4 ++ [dk])) =
      '9' :: '7' :: d3 :: (s1 ++ A ++ s2 ++ B ++ s3 ++ C ++ s4 ++ [dk]) :=
    trimSpace_cons_concat '9' ('7' :: d3 :: (s1 ++ A ++ s2 ++ B ++ s3 ++ C ++ s4))
      dk (by decide) (digit_not_trim hdk)
  have htail : attemptTail (s1 ++ A ++ s2 ++ B ++ s3 ++ C ++ s4 ++ [dk]) =
      some [] :=
    attemptTail_render hA1 hA2 hB1 hB2 hC1 hC2 hsum hA hB hC hdk hp1 hp2 hp3 hp4
  have htry : tryAt13
      ('9' :: '7' :: d3 :: (s1 ++ A ++ s2 ++ B ++ s3 ++ C ++ s4 ++ [dk])) =
      some ('9' :: '7' :: d3 :: (s1 ++ A ++ s2 ++ B ++ s3 ++ C ++ s4 ++ [dk])) := by
    simp only [tryAt13]
    rw [if_pos ⟨trivial, trivial, hd3⟩, htail]
    simp [List.take_length]
  have hscan : scan13 false
      ('9' :: '7' :: d3 :: (s1 ++ A ++ s2 ++ B ++ s3 ++ C ++ s4 ++ [dk])) =
      some ('9' :: '7' :: d3 :: (s1 ++ A ++ s2 ++ B ++ s3 ++ C ++ s4 ++ [dk])) :=
    scan13_cons_found (by decide) htry
  have hclean : cleanISBN
      ('9' :: '7' :: d3 :: (s1 ++ A ++ s2 ++ B ++ s3 ++ C ++ s4 ++ [dk])) =
      '9' :: '7' :: d3 :: (A ++ B ++ C ++ [dk]) := by
    rw [cleanISBN_cons_digit (by decide), cleanISBN_cons_digit (by decide),
      cleanISBN_cons_digit hd3', cleanISBN_append, cleanISBN_append,
      cleanISBN_append, cleanISBN_append, cleanISBN_append, cleanISBN_append,
      cleanISBN_append, sepPiece_clean hp1, sepPiece_clean hp2,
      sepPiece_clean hp3, sepPiece_clean hp4, cleanISBN_digits hA,
      cleanISBN_digits hB, cleanISBN_digits hC,
      cleanISBN_cons_digit hdk]
    simp [cleanISBN_nil]
  have hval : validateISBN13 ('9' :: '7' :: d3 :: (A ++ B ++ C ++ [dk])) = true := by
    unfold validateISBN13 isAllDigits
    simp only [Bool.and_eq_true, Bool.or_eq_true, decide_eq_true_eq,
      List.all_eq_true]
    refine ⟨⟨?_, ?_⟩, ?_⟩
    · simp only [List.length_cons, List.length_append, List.length_singleton,
        List.length_nil]
      omega
    · intro c hc
      simp only [List.mem_cons, List.mem_append, List.mem_singleton,
        List.not_mem_nil, or_false] at hc
      rcases hc with rfl | rfl | rfl | ((hc | hc) | hc) | rfl
      · decide
      · decide
      · exact hd3'
      · exact hA c hc
      · exact hB c hc
      · exact hC c hc
      · exact hdk
    · rcases hd3 with rfl | rfl
      · left
        simp [List.isPrefixOf]
      · right
        simp [List.isPrefixOf]
  have hstage : isbn13Stage
      ('9' :: '7' :: d3 :: (s1 ++ A ++ s2 ++ B ++ s3 ++ C ++ s4 ++ [dk])) =
      some ("isbn:".toList ++ ('9' :: '7' :: d3 :: (A ++ B ++ C ++ [dk])),
        SearchType.isbn, '9' :: '7' :: d3 :: (A ++ B ++ C ++ [dk])) := by
    unfold isbn13Stage
    rw [hscan]
    show (if validateISBN13 (cleanISBN
        ('9' :: '7' :: d3 :: (s1 ++ A ++ s2 ++ B ++ s3 ++ C ++ s4 ++ [dk]))) then
      _ else none) = _
    rw [hclean, if_pos hval]
  unfold parseQuery
  rw [htrim, hstage]

/-- C3 witness: the canonical hyphenation `978-0-7432-7356-5`. -/
theorem c3_formatted_isbn13_amended_witness :
    parseQuery ('9' :: '7' :: '8' :: (['-'] ++ "0".toList ++ ['-'] ++
        "7432".toList ++ ['-'] ++ "7356".toList ++ ['-'] ++ ['5'])) =
      ("isbn:".toList ++ ('9' :: '7' :: '8' ::
          ("0".toList ++ "7432".toList ++ "7356".toList ++ ['5'])),
        SearchType.isbn,
        '9' :: '7' :: '8' ::
          ("0".toList ++ "7432".toList ++ "7356".toList ++ ['5'])) :=
  c3_formatted_isbn13_amended "0".toList "7432".toList "7356".toList
    ['-'] ['-'] ['-'] ['-'] '8' '5'
    (by decide) (by decide) (by decide) (by decide) (by decide) (by decide)
    (by decide) (by decide) (by decide) (by decide)
    (Or.inl rfl) (by decide)
    (Or.inr (Or.inl rfl)) (Or.inr (Or.inl rfl)) (Or.inr (Or.inl rfl))
    (Or.inr (Or.inl rfl))

end Bookid
